import Mathlib

/-!
Verification of the account-classification pipeline (hiddenalpha).

This file gives a shallow embedding of the parts of the repository that the
checked properties are about:

* `fetch_accounts.py` — `AccountClassifier.load_existing_accounts` (30-day decay
  of the irrelevant store), `handle_rate_limit`, the inline user pre-filter of
  `fetch_recent_tweets`, `meets_metric_thresholds`, `classify_tweets`,
  `save_account`, `process_user`;
* `reevaluate_relevant_accounts.py` — `purge_irrelevant_accounts`;
* `fetch_tweets.py` — the id-deduplicating tweet merge of `process_account` /
  `save_all_tweets`.

Modelling conventions:

* Python `dict`s keyed by user id are association lists `List (String × α)`;
  `d[k] = v` is `alInsert` (replace in place, else append), `del d[k]` is
  `alErase`, `k in d` is `alContains`.  JSON files hold `list(d.values())`.
* Timestamps are seconds since the epoch as `Int`; the Python expression
  `(a - b).days` (a floor) is `(a - b) / 86400`, since `Int` division by a
  positive divisor is floor division in Lean.  A `classified_at` that is missing or
  unparsable is `none`.
* A missing `public_metrics` key is read with `.get(…, 0)` throughout the
  source, so metrics are plain `Nat` fields (absent ≡ 0).  The boolean JSON
  flag `too_many_followers` (absent ≡ false) is a `Bool` field.
* Classifier confidence scores are exact rationals.  The Python constants
  `0.8` and `0.4` are the IEEE doubles nearest those values; at every
  comparison checked here (in particular `2 >= 5 * 0.4`, where `5 * 0.4`
  evaluates to exactly `2.0` in double precision) the double computation
  agrees with the exact rational one, so thresholds are modelled as `4/5`
  and `2/5`.
* Exceptions are `Except`; a `try/except` that swallows the error is a
  `match` on the inner result.  Because Python mutates `self` in place, a
  failing step returns the state reached at the failure point alongside the
  error, and the catching wrapper keeps that state.
-/

namespace HiddenAlpha

/-- Decimal digit value of a character, `none` for a non-digit. -/
def decDigit? (c : Char) : Option Nat :=
  if '0' ≤ c ∧ c ≤ '9' then some (c.toNat - '0'.toNat) else none

/-- Decimal reading of a character list, `none` if any character is not a digit. -/
def decNat? (cs : List Char) : Option Nat :=
  cs.foldl
    (fun acc c =>
      match acc, decDigit? c with
      | some n, some d => some (n * 10 + d)
      | _, _ => none)
    (some 0)

/-- Python `int(s)` restricted to the unsigned decimal strings that appear in
rate-limit headers: the numeric value, or `none` (a raised `ValueError`) when
`s` is empty or not all digits. -/
def pyInt? (s : String) : Option Int :=
  if s.data.isEmpty then none else (decNat? s.data).map Int.ofNat

/-- `k in d` on a dict represented as an association list. -/
def alContains {α : Type} (l : List (String × α)) (k : String) : Bool :=
  l.any (fun p => p.1 == k)

/-- `d.get(k)` on a dict represented as an association list. -/
def alLookup {α : Type} (l : List (String × α)) (k : String) : Option α :=
  match l.find? (fun p => p.1 == k) with
  | some p => some p.2
  | none => none

/-- `del d[k]` on a dict represented as an association list. -/
def alErase {α : Type} (l : List (String × α)) (k : String) : List (String × α) :=
  l.filter (fun p => p.1 != k)

/-- `d[k] = v` on a dict represented as an association list: an existing
binding is replaced in place, a new key is appended (Python insertion order). -/
def alInsert {α : Type} (l : List (String × α)) (k : String) (v : α) : List (String × α) :=
  if alContains l k then l.map (fun p => if p.1 == k then (k, v) else p) else l ++ [(k, v)]

/-- `public_metrics` of a user record; every read in the source goes through
`.get("followers_count", 0)` / `.get("tweet_count", 0)`. -/
structure PublicMetrics where
  followers_count : Nat
  tweet_count : Nat
deriving DecidableEq, Repr

/-- A user/account record as the scripts see it.  `id` is `none` when the
`"id"` key is missing (reading it then raises `KeyError`). -/
structure Account where
  id : Option String
  username : String
  public_metrics : PublicMetrics
  too_many_followers : Bool
  classified_at : Option Int
  last_checked_at : Option Int
  last_relevant_tweet_count : Nat
deriving DecidableEq, Repr

/-- `self.max_followers` in `fetch_accounts.py` (also `MAX_FOLLOWERS` in the
re-evaluation scripts). -/
def maxFollowers : Nat := 2000

/-- `self.min_tweets` in `fetch_accounts.py`. -/
def minTweets : Nat := 300

/-- `self.classification_threshold` (Python float `0.8`). -/
def classificationThreshold : ℚ := 4/5

/-- `self.relevant_tweet_ratio` (Python float `0.4`). -/
def relevantTweetFrac : ℚ := 2/5

/-- `self.max_retries` in `fetch_accounts.py`. -/
def maxRetries : Nat := 3

/-- `AccountClassifier.meets_metric_thresholds` (fetch_accounts.py 394-404):
`followers < self.max_followers and tweet_count > self.min_tweets`. -/
def meetsMetricThresholds (u : Account) : Bool :=
  decide (u.public_metrics.followers_count < maxFollowers) &&
    decide (minTweets < u.public_metrics.tweet_count)

/-- The inline candidate pre-filter applied to `includes.users` in
`AccountClassifier.fetch_recent_tweets` (fetch_accounts.py 273-279):
`tweet_count >= self.min_tweets and followers_count < self.max_followers`. -/
def inlineUserFilter (u : Account) : Bool :=
  decide (minTweets ≤ u.public_metrics.tweet_count) &&
    decide (u.public_metrics.followers_count < maxFollowers)

/-- `AccountClassifier.classify_tweets` (fetch_accounts.py 406-458).  The
zero-shot pipeline call is the capability `call`, returning one score list per
tweet or a raised error.  Any error is caught and the function returns
`False`; otherwise a tweet counts as relevant when some label score exceeds
`classification_threshold`, and the verdict is
`relevant_tweets >= len(tweets) * relevant_tweet_ratio`. -/
def classifyTweets (call : List String → Except String (List (List ℚ)))
    (tweets : List String) : Bool :=
  if tweets.isEmpty then false
  else
    match call tweets with
    | .error _ => false
    | .ok results =>
      let relevantTweets :=
        (results.filter (fun scores => scores.any (fun s => decide (classificationThreshold < s)))).length
      decide ((relevantTweets : ℚ) ≥ (tweets.length : ℚ) * relevantTweetFrac)

/-- The two account collections (`self.relevant_accounts`,
`self.irrelevant_accounts`), dicts keyed by user id. -/
structure StorePair where
  relevant : List (String × Account)
  irrelevant : List (String × Account)
deriving DecidableEq, Repr

/-- Effect of `AccountClassifier.save_account` (fetch_accounts.py 460-501) on
the two in-memory collections, given that `user_data["id"]` is present (the
missing-id case raises before any mutation and is handled in `saveAccountExc`):
set `classified_at = now`; if saving as relevant, pop `too_many_followers`,
delete from the irrelevant dict and insert into the relevant dict; if saving
as irrelevant, set `too_many_followers` when `followers >= max_followers`,
delete from the relevant dict and insert into the irrelevant dict. -/
def saveAccountMem (sp : StorePair) (userData : Account) (relevant : Bool) (now : Int) :
    StorePair :=
  match userData.id with
  | none => sp
  | some uid =>
    let d := { userData with classified_at := some now }
    if relevant then
      { relevant := alInsert sp.relevant uid { d with too_many_followers := false },
        irrelevant := alErase sp.irrelevant uid }
    else
      let d :=
        if maxFollowers ≤ d.public_metrics.followers_count then
          { d with too_many_followers := true }
        else d
      { relevant := alErase sp.relevant uid,
        irrelevant := alInsert sp.irrelevant uid d }

/-- Full classifier persistence state: the two in-memory dicts plus the
contents of `accounts_relevant.json` and `accounts_irrelevant.json` (each file
holds `list(dict.values())`). -/
structure ClassifierState where
  relevant : List (String × Account)
  irrelevant : List (String × Account)
  relevantFile : List Account
  irrelevantFile : List Account
deriving DecidableEq, Repr

/-- The exceptions arising inside `save_account` / `process_user`. -/
inductive PyErr where
  | keyError
  | writeError
deriving DecidableEq, Repr

/-- Body of `AccountClassifier.save_account` before its `except` clause.
`user_id = user_data["id"]` raises `KeyError` when the id is missing; then the
in-memory dicts are mutated as in `saveAccountMem`; then only the file of the
collection being saved to is rewritten (`writeOk = false` is a file-system
failure at that write).  An error carries the state already mutated when it
was raised, matching the in-place mutation of `self` in Python. -/
def saveAccountExc (st : ClassifierState) (userData : Account) (relevant : Bool) (now : Int)
    (writeOk : Bool) : Except (PyErr × ClassifierState) ClassifierState :=
  match userData.id with
  | none => .error (.keyError, st)
  | some _ =>
    let sp := saveAccountMem ⟨st.relevant, st.irrelevant⟩ userData relevant now
    let st' : ClassifierState :=
      { st with relevant := sp.relevant, irrelevant := sp.irrelevant }
    if relevant then
      if writeOk then .ok { st' with relevantFile := sp.relevant.map Prod.snd }
      else .error (.writeError, st')
    else
      if writeOk then .ok { st' with irrelevantFile := sp.irrelevant.map Prod.snd }
      else .error (.writeError, st')

/-- `AccountClassifier.save_account` (fetch_accounts.py 460-501): the whole
body is wrapped in `try/except Exception`, which logs and returns normally,
keeping whatever mutation already happened. -/
def saveAccount (st : ClassifierState) (userData : Account) (relevant : Bool) (now : Int)
    (writeOk : Bool) : ClassifierState :=
  match saveAccountExc st userData relevant now writeOk with
  | .ok s => s
  | .error (_, s) => s

/-- The retention predicate of the decay pass in
`AccountClassifier.load_existing_accounts` (fetch_accounts.py 134-163): keep a
`too_many_followers` account, keep when `classified_at` is missing or
unparsable, otherwise keep exactly when `(now - classified_time).days < 30`. -/
def decayKeep (now : Int) (acc : Account) : Bool :=
  if acc.too_many_followers then true
  else
    match acc.classified_at with
    | none => true
    | some t => decide ((now - t) / 86400 < 30)

/-- The decay pass at the end of `load_existing_accounts`: the irrelevant dict
is rebuilt through `decayKeep`, the relevant dict is left alone. -/
def applyDecay (now : Int) (sp : StorePair) : StorePair :=
  { relevant := sp.relevant,
    irrelevant := sp.irrelevant.filter (fun p => decayKeep now p.2) }

/-- The dict-building loops of `load_existing_accounts` (fetch_accounts.py
113-125): `for acc in accounts: d[acc["id"]] = acc`; a record without the id
key raises `KeyError`, which propagates out of the load. -/
def keyById (arr : List Account) : Except PyErr (List (String × Account)) :=
  arr.foldlM
    (fun m a =>
      match a.id with
      | some i => .ok (alInsert m i a)
      | none => .error .keyError)
    []

/-- `AccountClassifier.load_existing_accounts` (fetch_accounts.py 105-163)
applied to the parsed contents of the two account files: key each array into
a dict by id, then run the 30-day decay pass on the irrelevant dict. -/
def loadExistingAccounts (now : Int) (relFile irrFile : List Account) :
    Except PyErr StorePair := do
  let rel ← keyById relFile
  let irr ← keyById irrFile
  return applyDecay now ⟨rel, irr⟩

/-- External data consumed by `purge_irrelevant_accounts`
(reevaluate_relevant_accounts.py): the clock, the parsed `created_at` times of
`all_tweets.json` keyed by username, and the freshly fetched follower count
keyed by user id (`fetch_user_metrics` returns `{}` on failure, read as 0). -/
structure PurgeEnv where
  now : Int
  tweetTimes : String → List Int
  followers : String → Nat

/-- Per-account body of the loop in `purge_irrelevant_accounts`
(reevaluate_relevant_accounts.py 80-112): count stored tweets newer than
`now - 30 days`, refresh `last_relevant_tweet_count` / `last_checked_at`,
then purge on 30-day inactivity, else purge (setting `too_many_followers`)
on `followers >= MAX_FOLLOWERS`, else keep.  Returns (purged?, updated record). -/
def purgeAccount (env : PurgeEnv) (uid : String) (acc : Account) : Bool × Account :=
  let cutoff := env.now - 30 * 86400
  let recentCount := ((env.tweetTimes acc.username).filter (fun t => cutoff < t)).length
  let followers := env.followers uid
  let lastChecked := acc.last_checked_at.getD 0
  let acc' := { acc with
    last_relevant_tweet_count := recentCount
    last_checked_at := some env.now }
  if recentCount = 0 ∧ 30 < (env.now - lastChecked) / 86400 then (true, acc')
  else if maxFollowers ≤ followers then (true, { acc' with too_many_followers := true })
  else (false, acc')

/-- `purge_irrelevant_accounts` (reevaluate_relevant_accounts.py 69-119) on the
two collections: split the relevant accounts into remaining and purged, keep
the relevant file to the remaining ones and append the purged ones to the
irrelevant file. -/
def purgeIrrelevantAccounts (env : PurgeEnv) (sp : StorePair) : StorePair :=
  let processed := sp.relevant.map (fun p => (p.1, purgeAccount env p.1 p.2))
  { relevant := (processed.filter (fun q => !q.2.1)).map (fun q => (q.1, q.2.2)),
    irrelevant := sp.irrelevant ++ (processed.filter (fun q => q.2.1)).map (fun q => (q.1, q.2.2)) }

/-- One `save_account` call of a classifier run: the record passed in, the
direction of the save, the clock value, and whether the file write succeeds. -/
structure SaveCall where
  userData : Account
  relevant : Bool
  now : Int
  writeOk : Bool

/-- A sequence of `save_account` calls within one classifier run.  This is the
only transition composition the program implements directly: successive saves
share the in-memory dicts of `self`, while the files only receive writes and
are never read back during the run. -/
def runSaves (st : ClassifierState) (cs : List SaveCall) : ClassifierState :=
  cs.foldl (fun s c => saveAccount s c.userData c.relevant c.now c.writeOk) st

/-- Keys of an association list are duplicate-free (true of every dict). -/
def KeysNodup {α : Type} (l : List (String × α)) : Prop :=
  (l.map Prod.fst).Nodup

/-- No account id is in both collections at once. -/
def StorePair.MutuallyExclusive (sp : StorePair) : Prop :=
  ∀ uid, ¬(alContains sp.relevant uid = true ∧ alContains sp.irrelevant uid = true)

/-- Well-formedness of the pair of collections: dict-shaped (duplicate-free
keys) and mutually exclusive. -/
def StorePair.Wf (sp : StorePair) : Prop :=
  KeysNodup sp.relevant ∧ KeysNodup sp.irrelevant ∧ sp.MutuallyExclusive

/-- `AccountClassifier.process_user` (fetch_accounts.py 503-533).
`recentTweets` is the list returned by `fetch_user_tweets` (the up-to-5
original tweets of the last 7 days; empty when there are none).  A user
failing the metric gate is saved irrelevant; a user with no recent original
tweets is skipped with no save at all; otherwise the content verdict decides
the save.  (The fixed pacing sleeps do not affect state.) -/
def processUser (st : ClassifierState) (call : List String → Except String (List (List ℚ)))
    (userData : Account) (recentTweets : List String) (now : Int) (writeOk : Bool) :
    Except PyErr ClassifierState :=
  match userData.id with
  | none => .error .keyError
  | some _ =>
    if !meetsMetricThresholds userData then
      .ok (saveAccount st userData false now writeOk)
    else if recentTweets.length = 0 then
      .ok st
    else if classifyTweets call recentTweets then
      .ok (saveAccount st userData true now writeOk)
    else
      .ok (saveAccount st userData false now writeOk)

/-- A stored post of `all_tweets.json`. -/
structure Tweet where
  id : String
  created_at : String
  text : String
deriving DecidableEq, Repr

/-- The id-deduplicating merge of `FetchTweets.process_account`
(fetch_tweets.py 163-168) and `save_all_tweets` (fetch_tweets.py 74-82):
append exactly the incoming tweets whose id is not already present. -/
def mergeTweets (existing newTweets : List Tweet) : List Tweet :=
  existing ++ newTweets.filter (fun t => !(existing.any (fun e => e.id == t.id)))

/-- The store-level merge `self.all_tweets[username] =
self.all_tweets.get(username, []) + new_tweets` keyed by username. -/
def mergeAccountTweets (store : List (String × List Tweet)) (username : String)
    (tweets : List Tweet) : List (String × List Tweet) :=
  alInsert store username (mergeTweets ((alLookup store username).getD []) tweets)

/-- The rate-limit headers of an API response as `handle_rate_limit` reads
them; `none` is an absent header. -/
structure ApiResponse where
  status : Nat
  rateLimitRemaining : Option String
  rateLimitLimit : Option String
  rateLimitReset : Option String
deriving DecidableEq, Repr

/-- Outcome of `handle_rate_limit`: return `False`, or sleep `wait` seconds
and return `True`, or raise (unparsable reset header fed to `int`). -/
inductive RateLimitAction where
  | noRetry
  | retryAfter (wait : Int)
  | raiseErr
deriving DecidableEq, Repr

/-- `AccountClassifier.handle_rate_limit` (fetch_accounts.py 183-222):
`reset = response.headers.get(reset-header-name, default "0")`; a non-429
status or an exhausted retry budget returns `False`; otherwise, when the
string `reset` is non-empty (note: an absent header yields the non-empty
default `"0"`), `wait = max(int(reset) - now, 1)`, else `wait = 60`; finally
`wait = min(wait, 900)`, sleep, return `True`. -/
def handleRateLimit (resp : ApiResponse) (retryCount : Nat) (now : Int) : RateLimitAction :=
  let reset := resp.rateLimitReset.getD ("0")
  if resp.status ≠ 429 then .noRetry
  else if maxRetries ≤ retryCount then .noRetry
  else
    let wait? : Option Int :=
      if reset ≠ "" then (pyInt? reset).map (fun resetTime => max (resetTime - now) 1)
      else some 60
    match wait? with
    | none => .raiseErr
    | some wait => .retryAfter (min wait 900)

/-! Concrete records used to instantiate the theorems below. -/

/-- A small active account that passes the metric gate. -/
def accSmall : Account :=
  { id := some ("u1"), username := "alice", public_metrics := ⟨100, 500⟩,
    too_many_followers := false, classified_at := none, last_checked_at := none,
    last_relevant_tweet_count := 0 }

/-- A record whose `id` key is missing. -/
def accNoId : Account :=
  { accSmall with id := none, username := "ghost" }

/-- An irrelevant, non-permanent account classified at epoch time 0. -/
def accStale : Account :=
  { accSmall with classified_at := some 0 }

/-- A user sitting exactly on the `min_tweets = 300` boundary. -/
def accBoundary : Account :=
  { accSmall with id := some ("u300"), username := "bob", public_metrics := ⟨1000, 300⟩ }

/-- A user just above the `min_tweets` boundary. -/
def accAbove : Account :=
  { accSmall with id := some ("u301"), username := "carol", public_metrics := ⟨1000, 301⟩ }

/-- A persistence state holding one irrelevant account, in memory and on disk. -/
def stOneIrr : ClassifierState :=
  { relevant := [], irrelevant := [(("u1" : String), accStale)],
    relevantFile := [], irrelevantFile := [accStale] }

/-- A purge environment with no stored tweets and no reachable metrics. -/
def envQuiet : PurgeEnv :=
  { now := 0, tweetTimes := fun _ => [], followers := fun _ => 0 }

/-- Starting from empty stores and files, demote `accSmall` and then promote
it, both file writes succeeding — the reachable two-save run of
`save_account`. -/
def stDemoteThenPromote : ClassifierState :=
  saveAccount (saveAccount ⟨[], [], [], []⟩ accSmall false 5 true) accSmall true 10 true

/-- A classifier capability that always raises. -/
def callRaise : List String → Except String (List (List ℚ)) :=
  fun _ => .error ("model failure")

/-- A classifier capability scoring 2 of 5 tweets above threshold. -/
def callTwoOfFive : List String → Except String (List (List ℚ)) :=
  fun _ => .ok [[1], [1], [0], [0], [0]]

/-- A classifier capability scoring 1 of 5 tweets above threshold. -/
def callOneOfFive : List String → Except String (List (List ℚ)) :=
  fun _ => .ok [[1], [0], [0], [0], [0]]

/-- A classifier capability returning an empty result list. -/
def callEmpty : List String → Except String (List (List ℚ)) :=
  fun _ => .ok []

/-- Five tweet texts. -/
def fiveTexts : List String := ["t1", "t2", "t3", "t4", "t5"]

/-- Two stored posts and one incoming post sharing the first id. -/
def twA : Tweet := { id := "p1", created_at := "2024-01-01T00:00:00Z", text := "gm" }

/-- A second stored post. -/
def twB : Tweet := { id := "p2", created_at := "2024-01-02T00:00:00Z", text := "wagmi" }

/-- An incoming post with a fresh id. -/
def twC : Tweet := { id := "p3", created_at := "2024-01-03T00:00:00Z", text := "ship" }

/-- A tweet store with one account already holding `twA` and `twB`. -/
def storeAB : List (String × List Tweet) := [(("alice" : String), [twA, twB])]

/-! Association-list lemmas. -/

theorem alContains_iff {α : Type} (l : List (String × α)) (k : String) :
    alContains l k = true ↔ k ∈ l.map Prod.fst := by
  simp [alContains, List.any_eq_true, List.mem_map]

theorem keys_alErase {α : Type} (l : List (String × α)) (k : String) :
    (alErase l k).map Prod.fst = (l.map Prod.fst).filter (fun x => x != k) := by
  unfold alErase
  induction l with
  | nil => rfl
  | cons p l ih =>
    rw [List.map_cons]
    rcases Bool.eq_false_or_eq_true (p.1 != k) with h | h
    · simp [List.filter_cons, h, ih]
    · simp [List.filter_cons, h, ih]

theorem keys_alInsert {α : Type} (l : List (String × α)) (k : String) (v : α) :
    (alInsert l k v).map Prod.fst =
      if alContains l k then l.map Prod.fst else l.map Prod.fst ++ [k] := by
  by_cases h : alContains l k
  · simp only [alInsert, h, if_true, List.map_map]
    refine List.map_congr_left (fun p _ => ?_)
    by_cases hp : p.1 = k
    · simp [Function.comp, hp]
    · simp [Function.comp, hp]
  · simp [alInsert, h]

theorem alContains_alErase_self {α : Type} (l : List (String × α)) (k : String) :
    alContains (alErase l k) k = false := by
  rw [Bool.eq_false_iff]
  intro h
  rw [alContains_iff, keys_alErase, List.mem_filter] at h
  simp [bne_iff_ne] at h

theorem alContains_alErase_ne {α : Type} (l : List (String × α)) (k k' : String)
    (h : k' ≠ k) : alContains (alErase l k) k' = alContains l k' := by
  rw [Bool.eq_iff_iff, alContains_iff, alContains_iff, keys_alErase, List.mem_filter]
  simp [bne_iff_ne, h]

theorem alContains_alInsert_self {α : Type} (l : List (String × α)) (k : String) (v : α) :
    alContains (alInsert l k v) k = true := by
  rw [alContains_iff, keys_alInsert]
  by_cases h : alContains l k
  · rw [if_pos h]
    exact (alContains_iff l k).mp h
  · rw [if_neg h]
    simp

theorem alContains_alInsert_ne {α : Type} (l : List (String × α)) (k k' : String) (v : α)
    (h : k' ≠ k) : alContains (alInsert l k v) k' = alContains l k' := by
  rw [Bool.eq_iff_iff, alContains_iff, alContains_iff, keys_alInsert]
  by_cases hc : alContains l k
  · rw [if_pos hc]
  · rw [if_neg hc]
    simp [h]

theorem keysNodup_alErase {α : Type} (l : List (String × α)) (k : String)
    (h : KeysNodup l) : KeysNodup (alErase l k) := by
  unfold KeysNodup at h ⊢
  rw [keys_alErase]
  exact h.filter _

theorem keysNodup_alInsert {α : Type} (l : List (String × α)) (k : String) (v : α)
    (h : KeysNodup l) : KeysNodup (alInsert l k v) := by
  unfold KeysNodup at h ⊢
  rw [keys_alInsert]
  by_cases hc : alContains l k
  · rwa [if_pos hc]
  · rw [if_neg hc]
    refine List.Nodup.append h (List.nodup_singleton k) ?_
    intro x hx hk
    rw [List.mem_singleton] at hk
    subst hk
    exact hc ((alContains_iff l x).mpr hx)

theorem find?_alInsert_self {α : Type} (l : List (String × α)) (k : String) (v : α) :
    (alInsert l k v).find? (fun p => p.1 == k) = some (k, v) := by
  unfold alInsert
  by_cases hc : alContains l k
  · rw [if_pos hc]
    unfold alContains at hc
    induction l with
    | nil => simp at hc
    | cons q l ih =>
      rw [List.map_cons]
      rcases Bool.eq_false_or_eq_true (q.1 == k) with hq | hq
      · rw [if_pos hq]
        simp [List.find?_cons]
      · rw [if_neg (by simp [hq])]
        have hfc : List.find? (fun p => p.1 == k)
            (q :: l.map (fun p => if p.1 == k then (k, v) else p)) =
            List.find? (fun p => p.1 == k) (l.map (fun p => if p.1 == k then (k, v) else p)) := by
          simp [List.find?_cons, hq]
        rw [hfc]
        apply ih
        rcases List.any_eq_true.mp hc with ⟨p, hp, he⟩
        cases hp with
        | head => rw [he] at hq; cases hq
        | tail _ hmem => exact List.any_eq_true.mpr ⟨p, hmem, he⟩
  · rw [if_neg hc]
    have hnone : l.find? (fun p => p.1 == k) = none := by
      rw [List.find?_eq_none]
      intro p hp hbe
      exact hc ((alContains_iff l k).mpr (List.mem_map.mpr ⟨p, hp, beq_iff_eq.mp hbe⟩))
    rw [List.find?_append, hnone]
    simp [List.find?]

theorem alLookup_alInsert_self {α : Type} (l : List (String × α)) (k : String) (v : α) :
    alLookup (alInsert l k v) k = some v := by
  unfold alLookup
  rw [find?_alInsert_self]

theorem alInsert_self_of_lookup {α : Type} (l : List (String × α)) (k : String) (v : α)
    (hnd : KeysNodup l) (hlk : alLookup l k = some v) : alInsert l k v = l := by
  obtain ⟨q, hq, hqv⟩ : ∃ q, l.find? (fun p => p.1 == k) = some q ∧ q.2 = v := by
    unfold alLookup at hlk
    cases hf : l.find? (fun p => p.1 == k) with
    | none => rw [hf] at hlk; cases hlk
    | some q => rw [hf] at hlk; exact ⟨q, rfl, Option.some.inj hlk⟩
  have hqmem : q ∈ l := List.mem_of_find?_eq_some hq
  have hqk := List.find?_some hq
  have hqk' : q.1 = k := beq_iff_eq.mp hqk
  have hcont : alContains l k = true :=
    (alContains_iff l k).mpr (List.mem_map.mpr ⟨q, hqmem, hqk'⟩)
  have hrepl : ∀ p ∈ l, (if (p.1 == k) = true then (k, v) else p) = p := by
    intro p hp
    by_cases hpk : (p.1 == k) = true
    · rw [if_pos hpk]
      have hpq : p = q :=
        List.inj_on_of_nodup_map hnd hp hqmem (by rw [beq_iff_eq.mp hpk, hqk'])
      rw [hpq, ← hqk', ← hqv]
    · rw [if_neg hpk]
  unfold alInsert
  rw [if_pos hcont]
  have hmap : l.map (fun p => if p.1 == k then (k, v) else p) = l.map id :=
    List.map_congr_left (fun p hp => hrepl p hp)
  rw [hmap, List.map_id]

theorem filter_keys_not_mem_both {α : Type} (l : List α) (f : α → String) (q : α → Bool)
    (k : String) (hnd : (l.map f).Nodup) :
    ¬(k ∈ ((l.filter fun x => q x).map f) ∧ k ∈ ((l.filter fun x => !q x).map f)) := by
  rintro ⟨h1, h2⟩
  rcases List.mem_map.mp h1 with ⟨x, hx, hfx⟩
  rcases List.mem_map.mp h2 with ⟨y, hy, hfy⟩
  rcases List.mem_filter.mp hx with ⟨hxl, hqx⟩
  rcases List.mem_filter.mp hy with ⟨hyl, hqy⟩
  have hxy : x = y :=
    List.inj_on_of_nodup_map hnd hxl hyl (by rw [hfx, hfy])
  subst hxy
  rw [hqx] at hqy
  cases hqy

/-! Preservation of well-formedness by the lifecycle transitions. -/

theorem wf_insert_erase (rel irr : List (String × Account)) (uid : String) (v : Account)
    (hr : KeysNodup rel) (hi : KeysNodup irr)
    (hm : ∀ k, ¬(alContains rel k = true ∧ alContains irr k = true)) :
    StorePair.Wf ⟨alInsert rel uid v, alErase irr uid⟩ := by
  refine ⟨keysNodup_alInsert _ _ _ hr, keysNodup_alErase _ _ hi, fun k hk => ?_⟩
  obtain ⟨hk1, hk2⟩ := hk
  by_cases hke : k = uid
  · subst hke
    rw [alContains_alErase_self] at hk2
    cases hk2
  · rw [alContains_alInsert_ne _ _ _ _ hke] at hk1
    rw [alContains_alErase_ne _ _ _ hke] at hk2
    exact hm k ⟨hk1, hk2⟩

theorem wf_erase_insert (rel irr : List (String × Account)) (uid : String) (v : Account)
    (hr : KeysNodup rel) (hi : KeysNodup irr)
    (hm : ∀ k, ¬(alContains rel k = true ∧ alContains irr k = true)) :
    StorePair.Wf ⟨alErase rel uid, alInsert irr uid v⟩ := by
  refine ⟨keysNodup_alErase _ _ hr, keysNodup_alInsert _ _ _ hi, fun k hk => ?_⟩
  obtain ⟨hk1, hk2⟩ := hk
  by_cases hke : k = uid
  · subst hke
    rw [alContains_alErase_self] at hk1
    cases hk1
  · rw [alContains_alErase_ne _ _ _ hke] at hk1
    rw [alContains_alInsert_ne _ _ _ _ hke] at hk2
    exact hm k ⟨hk1, hk2⟩

theorem wf_saveAccountMem (sp : StorePair) (acc : Account) (rel : Bool) (now : Int)
    (h : sp.Wf) : (saveAccountMem sp acc rel now).Wf := by
  obtain ⟨hr, hi, hm⟩ := h
  cases hacc : acc.id with
  | none =>
    simp only [saveAccountMem, hacc]
    exact ⟨hr, hi, hm⟩
  | some uid =>
    cases rel with
    | true =>
      simp only [saveAccountMem, hacc, if_true]
      exact wf_insert_erase sp.relevant sp.irrelevant uid _ hr hi hm
    | false =>
      simp only [saveAccountMem, hacc, Bool.false_eq_true, if_false]
      exact wf_erase_insert sp.relevant sp.irrelevant uid _ hr hi hm

theorem wf_purgeIrrelevantAccounts (env : PurgeEnv) (sp : StorePair) (h : sp.Wf) :
    (purgeIrrelevantAccounts env sp).Wf := by
  obtain ⟨hr, hi, hm⟩ := h
  show StorePair.Wf
    ⟨((sp.relevant.map (fun p => (p.1, purgeAccount env p.1 p.2))).filter
        (fun q => !q.2.1)).map (fun q => (q.1, q.2.2)),
      sp.irrelevant ++ ((sp.relevant.map (fun p => (p.1, purgeAccount env p.1 p.2))).filter
        (fun q => q.2.1)).map (fun q => (q.1, q.2.2))⟩
  have hkproc : (sp.relevant.map (fun p => (p.1, purgeAccount env p.1 p.2))).map Prod.fst
      = sp.relevant.map Prod.fst := by
    rw [List.map_map]
    exact List.map_congr_left (fun p _ => rfl)
  have hrepack : ∀ (f : (String × (Bool × Account)) → Bool),
      (((sp.relevant.map (fun p => (p.1, purgeAccount env p.1 p.2))).filter f).map
        (fun q => (q.1, q.2.2))).map Prod.fst
      = ((sp.relevant.map (fun p => (p.1, purgeAccount env p.1 p.2))).filter f).map Prod.fst := by
    intro f
    rw [List.map_map]
    exact List.map_congr_left (fun p _ => rfl)
  have hsub : ∀ (f : (String × (Bool × Account)) → Bool),
      ((sp.relevant.map (fun p => (p.1, purgeAccount env p.1 p.2))).filter f).map Prod.fst
        ⊆ sp.relevant.map Prod.fst := by
    intro f
    rw [← hkproc]
    exact (List.Sublist.map Prod.fst (List.filter_sublist _)).subset
  have hndproc : ((sp.relevant.map (fun p => (p.1, purgeAccount env p.1 p.2))).map Prod.fst).Nodup := by
    rw [hkproc]; exact hr
  refine ⟨?_, ?_, fun k hk => ?_⟩
  · show (((sp.relevant.map (fun p => (p.1, purgeAccount env p.1 p.2))).filter
      (fun q => !q.2.1)).map (fun q => (q.1, q.2.2))).map Prod.fst |>.Nodup
    rw [hrepack]
    exact List.Nodup.sublist (List.Sublist.map Prod.fst (List.filter_sublist _)) hndproc
  · show ((sp.irrelevant ++ _).map Prod.fst).Nodup
    rw [List.map_append, hrepack]
    refine List.Nodup.append hi
      (List.Nodup.sublist (List.Sublist.map Prod.fst (List.filter_sublist _)) hndproc) ?_
    intro k hkirr hkpurg
    have hkrel : k ∈ sp.relevant.map Prod.fst := hsub _ hkpurg
    exact hm k ⟨(alContains_iff _ _).mpr hkrel, (alContains_iff _ _).mpr hkirr⟩
  · obtain ⟨hk1, hk2⟩ := hk
    rw [alContains_iff] at hk1 hk2
    dsimp only at hk1 hk2
    have hk1m : k ∈ ((sp.relevant.map (fun p => (p.1, purgeAccount env p.1 p.2))).filter
        (fun q => !q.2.1)).map Prod.fst := by
      rw [← hrepack (fun q => !q.2.1)]
      exact hk1
    rw [List.map_append, List.mem_append] at hk2
    rcases hk2 with hk2 | hk2
    · exact hm k ⟨(alContains_iff _ _).mpr (hsub _ hk1m), (alContains_iff _ _).mpr hk2⟩
    · rw [hrepack (fun q => q.2.1)] at hk2
      exact filter_keys_not_mem_both _ Prod.fst (fun q => q.2.1) k hndproc ⟨hk2, hk1m⟩

theorem saveAccount_collections (st : ClassifierState) (acc : Account) (rel : Bool)
    (now : Int) (w : Bool) :
    (saveAccount st acc rel now w).relevant =
      (saveAccountMem ⟨st.relevant, st.irrelevant⟩ acc rel now).relevant ∧
    (saveAccount st acc rel now w).irrelevant =
      (saveAccountMem ⟨st.relevant, st.irrelevant⟩ acc rel now).irrelevant := by
  cases hacc : acc.id with
  | none =>
    cases rel <;> cases w <;> simp [saveAccount, saveAccountExc, saveAccountMem, hacc]
  | some uid =>
    cases rel <;> cases w <;> simp [saveAccount, saveAccountExc, hacc]

theorem wf_runSaves (st : ClassifierState) (cs : List SaveCall)
    (h : StorePair.Wf ⟨st.relevant, st.irrelevant⟩) :
    StorePair.Wf ⟨(runSaves st cs).relevant, (runSaves st cs).irrelevant⟩ := by
  induction cs generalizing st with
  | nil => exact h
  | cons c cs ih =>
    apply ih
    have hc := saveAccount_collections st c.userData c.relevant c.now c.writeOk
    rw [hc.1, hc.2]
    exact wf_saveAccountMem ⟨st.relevant, st.irrelevant⟩ c.userData c.relevant c.now h

/-- Claim C1, counterexample to the claim as stated: demoting `accSmall` and
then promoting it (a reachable two-save sequence, both writes succeeding)
leaves its id in BOTH persisted stores — `save_account` rewrites only the
target file, so the promote never removes the account from the irrelevant
file — and the next `load_existing_accounts` returns it as a member of both
collections; the in-memory collections of the writing run are fine, but the
stores the transitions hand to the next run are not mutually exclusive. -/
theorem persisted_stores_overlap_counterexample :
    alContains stDemoteThenPromote.relevant ("u1") = true ∧
    alContains stDemoteThenPromote.irrelevant ("u1") = false ∧
    some ("u1") ∈ stDemoteThenPromote.relevantFile.map Account.id ∧
    some ("u1") ∈ stDemoteThenPromote.irrelevantFile.map Account.id ∧
    (loadExistingAccounts 10 stDemoteThenPromote.relevantFile
        stDemoteThenPromote.irrelevantFile).map
      (fun sp => (alContains sp.relevant ("u1"), alContains sp.irrelevant ("u1"))) =
      .ok (true, true) := by
  refine ⟨by decide, by decide, by decide, by decide, rfl⟩

/-- Claim C1 (amended): within a single classifier run, every sequence of
`save_account` calls keeps the in-memory collections mutually exclusive —
saving as relevant removes the id from the in-memory irrelevant collection
and conversely — and a re-evaluation purge whose loaded stores are
well-formed (duplicate-free ids, mutually exclusive) produces mutually
exclusive stores, each purged account moving from relevant to irrelevant.
Mutual exclusion does not extend to the persisted stores across transitions:
`save_account` rewrites only the target file, so a demote followed by a
promote leaves the account in both files and the next load yields it in both
collections (see the counterexample). -/
theorem memory_and_purge_mutual_exclusion (st : ClassifierState) (cs : List SaveCall)
    (env : PurgeEnv) (sp : StorePair) (uid : String)
    (hst : StorePair.Wf ⟨st.relevant, st.irrelevant⟩) (hsp : sp.Wf) :
    (¬(alContains (runSaves st cs).relevant uid = true ∧
        alContains (runSaves st cs).irrelevant uid = true)) ∧
    (¬(alContains (purgeIrrelevantAccounts env sp).relevant uid = true ∧
        alContains (purgeIrrelevantAccounts env sp).irrelevant uid = true)) :=
  ⟨(wf_runSaves st cs hst).2.2 uid, (wf_purgeIrrelevantAccounts env sp hsp).2.2 uid⟩

/-- Witness for C1 (amended): the demote-then-promote run from empty stores
keeps the in-memory collections mutually exclusive, and a purge of a
one-account well-formed store yields mutually exclusive stores. -/
theorem memory_and_purge_mutual_exclusion_witness :
    (¬(alContains (runSaves ⟨[], [], [], []⟩
          [⟨accSmall, false, 5, true⟩, ⟨accSmall, true, 10, true⟩]).relevant ("u1") = true ∧
        alContains (runSaves ⟨[], [], [], []⟩
          [⟨accSmall, false, 5, true⟩, ⟨accSmall, true, 10, true⟩]).irrelevant ("u1") = true)) ∧
    (¬(alContains (purgeIrrelevantAccounts envQuiet
          ⟨[(("u1" : String), accSmall)], []⟩).relevant ("u1") = true ∧
        alContains (purgeIrrelevantAccounts envQuiet
          ⟨[(("u1" : String), accSmall)], []⟩).irrelevant ("u1") = true)) := by
  have hst : StorePair.Wf ⟨([] : List (String × Account)), []⟩ := by
    refine ⟨List.nodup_nil, List.nodup_nil, fun uid hu => ?_⟩
    simp [alContains] at hu
  have hsp : StorePair.Wf ⟨[(("u1" : String), accSmall)], []⟩ := by
    refine ⟨?_, List.nodup_nil, fun uid hu => ?_⟩
    · show ([(("u1" : String), accSmall)].map Prod.fst).Nodup
      decide
    · simp [alContains] at hu
  exact memory_and_purge_mutual_exclusion ⟨[], [], [], []⟩
    [⟨accSmall, false, 5, true⟩, ⟨accSmall, true, 10, true⟩] envQuiet
    ⟨[(("u1" : String), accSmall)], []⟩ ("u1") hst hsp

/-- Claim C2, counterexample to the claim as stated: `accStale` is irrelevant,
non-permanent, and classified exactly 30 days (2592000 seconds) before load
time, so its age does not exceed 30 days — yet the decay pass drops it
(the code drops at `days_elapsed >= 30`, not `> 30 days`). -/
theorem decay_thirty_day_boundary_counterexample :
    ¬((2592000 : Int) - 0 > 30 * 86400) ∧
    accStale.too_many_followers = false ∧
    accStale.classified_at = some 0 ∧
    (applyDecay 2592000 ⟨[], [(("u1" : String), accStale)]⟩).irrelevant = [] := by
  refine ⟨by norm_num, rfl, rfl, by decide⟩

/-- Claim C2 (amended): on load, the decay pass never changes the relevant
store, and an irrelevant account survives it exactly when it carries the
permanent flag, or has no parsable `classified_at`, or its age is strictly
less than 30 days (equivalently: it is dropped exactly when it is
non-permanent, has a parsable timestamp, and `now - classified_at` is at
least 30 days — so 31 days is dropped, 29 days is retained, a permanent
account at 100 days is retained). -/
theorem decay_law (now : Int) (sp : StorePair) (uid : String) (acc : Account) :
    (applyDecay now sp).relevant = sp.relevant ∧
    ((uid, acc) ∈ (applyDecay now sp).irrelevant ↔
      (uid, acc) ∈ sp.irrelevant ∧
        (acc.too_many_followers = true ∨
          acc.classified_at.all (fun t => decide (now - t < 30 * 86400)) = true)) := by
  have hkeep : decayKeep now acc = true ↔
      (acc.too_many_followers = true ∨
        acc.classified_at.all (fun t => decide (now - t < 30 * 86400)) = true) := by
    unfold decayKeep
    cases hf : acc.too_many_followers with
    | true => simp
    | false =>
      cases hc : acc.classified_at with
      | none => simp [Option.all]
      | some t =>
        simp only [Bool.false_eq_true, if_false, Option.all, decide_eq_true_eq,
          false_or]
        omega
  refine ⟨rfl, ?_⟩
  show (uid, acc) ∈ sp.irrelevant.filter (fun p => decayKeep now p.2) ↔ _
  constructor
  · intro hmem
    obtain ⟨h1, h2⟩ := List.mem_filter.mp hmem
    exact ⟨h1, hkeep.mp h2⟩
  · rintro ⟨h1, h2⟩
    exact List.mem_filter.mpr ⟨h1, hkeep.mpr h2⟩

/-- Claim C3, counterexample to the claim as stated: promoting `accStale` out
of `stOneIrr` removes it from the in-memory irrelevant collection (now empty)
but leaves the irrelevant file untouched, still holding the stale record —
`save_account` does not persist both collections, only the target one. -/
theorem save_account_single_file_counterexample :
    (saveAccount stOneIrr accStale true 100 true).irrelevant = [] ∧
    (saveAccount stOneIrr accStale true 100 true).irrelevantFile = [accStale] ∧
    (saveAccount stOneIrr accStale true 100 true).irrelevantFile ≠
      ((saveAccount stOneIrr accStale true 100 true).irrelevant.map Prod.snd) := by
  refine ⟨by decide, by decide, by decide⟩

/-- Claim C3 (amended): with the write succeeding, a promote stores the
record with the permanent flag cleared and `classified_at = now`, removes the
id from the irrelevant collection, and persists only the relevant collection
to its file (the irrelevant file is unchanged); a demote stores the record
with `classified_at = now` and the permanent flag set exactly when it was
already set or the follower count is at or above the threshold, removes the
id from the relevant collection, and persists only the irrelevant collection
to its file (the relevant file is unchanged). -/
theorem promote_demote_effects (st : ClassifierState) (acc : Account) (uid : String)
    (now : Int) (hid : acc.id = some uid) :
    alLookup (saveAccount st acc true now true).relevant uid =
      some { acc with classified_at := some now, too_many_followers := false } ∧
    alContains (saveAccount st acc true now true).irrelevant uid = false ∧
    (saveAccount st acc true now true).relevantFile =
      (saveAccount st acc true now true).relevant.map Prod.snd ∧
    (saveAccount st acc true now true).irrelevantFile = st.irrelevantFile ∧
    alLookup (saveAccount st acc false now true).irrelevant uid =
      some { acc with
              classified_at := some now,
              too_many_followers := (acc.too_many_followers ||
                decide (maxFollowers ≤ acc.public_metrics.followers_count)) } ∧
    alContains (saveAccount st acc false now true).relevant uid = false ∧
    (saveAccount st acc false now true).irrelevantFile =
      (saveAccount st acc false now true).irrelevant.map Prod.snd ∧
    (saveAccount st acc false now true).relevantFile = st.relevantFile := by
  by_cases hf : maxFollowers ≤ acc.public_metrics.followers_count
  · simp [saveAccount, saveAccountExc, saveAccountMem, hid, hf,
      alLookup_alInsert_self, alContains_alErase_self, decide_eq_true hf]
  · simp [saveAccount, saveAccountExc, saveAccountMem, hid, hf,
      alLookup_alInsert_self, alContains_alErase_self, decide_eq_false hf]

/-- Witness for C3 (amended) at the concrete state `stOneIrr`. -/
theorem promote_demote_effects_witness :
    alLookup (saveAccount stOneIrr accStale true 100 true).relevant ("u1") =
      some { accStale with classified_at := some 100, too_many_followers := false } ∧
    alContains (saveAccount stOneIrr accStale true 100 true).irrelevant ("u1") = false ∧
    (saveAccount stOneIrr accStale true 100 true).relevantFile =
      (saveAccount stOneIrr accStale true 100 true).relevant.map Prod.snd ∧
    (saveAccount stOneIrr accStale true 100 true).irrelevantFile = stOneIrr.irrelevantFile ∧
    alLookup (saveAccount stOneIrr accStale false 100 true).irrelevant ("u1") =
      some { accStale with
              classified_at := some 100,
              too_many_followers := (accStale.too_many_followers ||
                decide (maxFollowers ≤ accStale.public_metrics.followers_count)) } ∧
    alContains (saveAccount stOneIrr accStale false 100 true).relevant ("u1") = false ∧
    (saveAccount stOneIrr accStale false 100 true).irrelevantFile =
      (saveAccount stOneIrr accStale false 100 true).irrelevant.map Prod.snd ∧
    (saveAccount stOneIrr accStale false 100 true).relevantFile = stOneIrr.relevantFile :=
  promote_demote_effects stOneIrr accStale ("u1") 100 rfl

/-- Claim C10: `save_account` never raises: a record missing the id key
leaves the state entirely unchanged (the `KeyError` is caught before any
mutation), and a failing file write is caught after the in-memory mutation:
the collections are exactly those of a successful save while both files keep
their previous contents — the in-memory store then diverges from disk. -/
theorem save_account_never_raises (st : ClassifierState) (acc : Account) (rel : Bool)
    (now : Int) (w : Bool) :
    (acc.id = none → saveAccount st acc rel now w = st) ∧
    (saveAccount st acc rel now false).relevant = (saveAccount st acc rel now true).relevant ∧
    (saveAccount st acc rel now false).irrelevant =
      (saveAccount st acc rel now true).irrelevant ∧
    (saveAccount st acc rel now false).relevantFile = st.relevantFile ∧
    (saveAccount st acc rel now false).irrelevantFile = st.irrelevantFile := by
  cases hacc : acc.id with
  | none => cases rel <;> simp [saveAccount, saveAccountExc, hacc]
  | some uid => cases rel <;> simp [saveAccount, saveAccountExc, hacc]

/-- Witness for C10: a missing-id save leaves `stOneIrr` unchanged, and a
failed-write demote leaves the irrelevant file unchanged. -/
theorem save_account_never_raises_witness :
    saveAccount stOneIrr accNoId true 5 true = stOneIrr ∧
    (saveAccount stOneIrr accStale false 7 false).irrelevantFile = stOneIrr.irrelevantFile :=
  ⟨(save_account_never_raises stOneIrr accNoId true 5 true).1 rfl,
    (save_account_never_raises stOneIrr accStale false 7 false).2.2.2.2⟩

/-- Claim C4 (code evaluation at the failing input): within the retry budget,
a 429 whose reset header is present waits `min(max(reset - now, 1), 900)` —
30 seconds for `reset = now + 30`, capped at 900 seconds for any larger
reset — but a 429 with the header entirely absent waits 1 second, not the
60-second default the claim (and the in-code fallback comment) state:
`headers.get` supplies the truthy default string `"0"`, so the 60-second
branch is unreachable and the wait is `min(max(int("0") - now, 1), 900) = 1`. -/
theorem handle_rate_limit_absent_header_waits_one_second :
    handleRateLimit ⟨429, none, none, none⟩ 0 1700000000 = .retryAfter 1 ∧
    handleRateLimit ⟨429, none, none, some ("1700000030")⟩ 0 1700000000 = .retryAfter 30 ∧
    handleRateLimit ⟨429, none, none, some ("1900000000")⟩ 0 1700000000 = .retryAfter 900 ∧
    (1 : Int) ≠ 60 := by
  refine ⟨by decide, by decide, by decide, by decide⟩

/-- Claim C5: for a non-empty batch, if the zero-shot call raises then
`classify_tweets` returns not-relevant instead of propagating the error, and
`process_user` (metric gate passed) therefore saves the account into the
irrelevant store for that cycle — the account is not left unclassified. -/
theorem classification_fail_closed (st : ClassifierState)
    (call : List String → Except String (List (List ℚ))) (acc : Account) (uid : String)
    (tweets : List String) (now : Int) (w : Bool) (e : String)
    (hid : acc.id = some uid) (hm : meetsMetricThresholds acc = true)
    (hne : tweets ≠ []) (herr : call tweets = .error e) :
    classifyTweets call tweets = false ∧
    processUser st call acc tweets now w = .ok (saveAccount st acc false now w) ∧
    alContains (saveAccount st acc false now w).irrelevant uid = true := by
  have hne' : tweets.isEmpty = false := by
    simpa [List.isEmpty_iff] using hne
  have hcl : classifyTweets call tweets = false := by
    simp [classifyTweets, hne', herr]
  refine ⟨hcl, ?_, ?_⟩
  · simp [processUser, hid, hm, hcl, List.length_eq_zero, hne]
  · cases w <;>
      simp [saveAccount, saveAccountExc, saveAccountMem, hid, alContains_alInsert_self]

/-- Witness for C5: a raising classifier on a one-post batch sends `accSmall`
to the irrelevant store. -/
theorem classification_fail_closed_witness :
    classifyTweets callRaise [("gm")] = false ∧
    processUser stOneIrr callRaise accSmall [("gm")] 3 true =
      .ok (saveAccount stOneIrr accSmall false 3 true) ∧
    alContains (saveAccount stOneIrr accSmall false 3 true).irrelevant ("u1") = true :=
  classification_fail_closed stOneIrr callRaise accSmall ("u1") [("gm")] 3 true
    ("model failure") rfl (by decide) (by decide) rfl

/-- Claim C6, counterexample to the claim as stated: for the empty post list
the ratio condition holds (0 posts above threshold and `0 ≥ 0 * 0.4`), yet
the verdict is not-relevant — the claimed equivalence fails at the empty
list, where the code returns `False` before consulting the ratio. -/
theorem ratio_rule_empty_counterexample :
    classifyTweets callEmpty [] = false ∧
    (((([] : List (List ℚ)).filter
        (fun scores => scores.any (fun s => decide (classificationThreshold < s)))).length : ℚ) ≥
      (([] : List String).length : ℚ) * relevantTweetFrac) := by
  constructor
  · rfl
  · norm_num

/-- Claim C6 (amended): for every non-empty batch whose classification call
succeeds, the verdict is relevant iff the number of posts with some label
score strictly above the threshold is at least the post count times the
minimum fraction 2/5 — boundary inclusive, equivalently
`5 * relevant_count ≥ 2 * post_count`; the empty batch is not-relevant
unconditionally. -/
theorem ratio_rule (call : List String → Except String (List (List ℚ)))
    (tweets : List String) (results : List (List ℚ))
    (hne : tweets ≠ []) (hok : call tweets = .ok results) :
    (classifyTweets call tweets = true ↔
      (((results.filter
          (fun scores => scores.any (fun s => decide (classificationThreshold < s)))).length : ℚ) ≥
        (tweets.length : ℚ) * relevantTweetFrac)) ∧
    (classifyTweets call tweets = true ↔
      2 * tweets.length ≤
        5 * (results.filter
          (fun scores => scores.any (fun s => decide (classificationThreshold < s)))).length) := by
  have hne' : tweets.isEmpty = false := by
    simpa [List.isEmpty_iff] using hne
  have hred : classifyTweets call tweets =
      decide (((results.filter
          (fun scores => scores.any (fun s => decide (classificationThreshold < s)))).length : ℚ) ≥
        (tweets.length : ℚ) * relevantTweetFrac) := by
    simp [classifyTweets, hne', hok]
  constructor
  · rw [hred, decide_eq_true_eq]
  · rw [hred, decide_eq_true_eq]
    unfold relevantTweetFrac
    rw [ge_iff_le, mul_div_assoc', div_le_iff₀ (by norm_num : (0:ℚ) < 5)]
    constructor
    · intro h
      have h2 : tweets.length * 2 ≤
          (results.filter
            (fun scores => scores.any (fun s => decide (classificationThreshold < s)))).length * 5 := by
        exact_mod_cast h
      omega
    · intro h
      have h2 : tweets.length * 2 ≤
          (results.filter
            (fun scores => scores.any (fun s => decide (classificationThreshold < s)))).length * 5 := by
        omega
      exact_mod_cast h2

/-- Witness for C6 (amended): with 5 posts, exactly 2 scoring above threshold
is relevant (2/5 = 0.4, boundary inclusive) and exactly 1 is not. -/
theorem ratio_rule_witness :
    classifyTweets callTwoOfFive fiveTexts = true ∧
    classifyTweets callOneOfFive fiveTexts = false := by
  constructor
  · exact (ratio_rule callTwoOfFive fiveTexts [[1], [1], [0], [0], [0]]
      (by decide) rfl).2.mpr (by norm_num [classificationThreshold, fiveTexts])
  · have h := (ratio_rule callOneOfFive fiveTexts [[1], [0], [0], [0], [0]]
      (by decide) rfl).2
    rw [Bool.eq_false_iff]
    intro ht
    have hc := h.mp ht
    norm_num [classificationThreshold, fiveTexts] at hc

/-- Claim C7: an account that passes the metric gate but has zero qualifying
original posts in the 7-day lookback window is skipped without writing any
classification: `process_user` returns the state exactly unchanged — both
collections, both files, and in particular no `classified_at` update. -/
theorem activity_gate_writes_nothing (st : ClassifierState)
    (call : List String → Except String (List (List ℚ))) (acc : Account) (uid : String)
    (now : Int) (w : Bool) (hid : acc.id = some uid)
    (hm : meetsMetricThresholds acc = true) :
    processUser st call acc [] now w = .ok st := by
  simp [processUser, hid, hm]

/-- Witness for C7 at the concrete state `stOneIrr`. -/
theorem activity_gate_writes_nothing_witness :
    processUser stOneIrr callRaise accSmall [] 3 true = .ok stOneIrr :=
  activity_gate_writes_nothing stOneIrr callRaise accSmall ("u1") 3 true rfl (by decide)

/-- Claim C8: the tweet merge is idempotent on ids — re-merging a post whose
id is already stored for the account leaves the stored collection unchanged —
and a merged batch appends exactly the incoming posts whose ids were
previously unseen, in the order given. -/
theorem merge_idempotent_dedup (store : List (String × List Tweet)) (username : String)
    (existing : List Tweet) (p : Tweet) (batch : List Tweet)
    (hnd : KeysNodup store) (hex : alLookup store username = some existing)
    (hdup : p.id ∈ existing.map Tweet.id) :
    mergeAccountTweets store username [p] = store ∧
    mergeTweets existing batch =
      existing ++ batch.filter (fun t => decide (t.id ∉ existing.map Tweet.id)) := by
  constructor
  · have hany : (existing.any (fun e => e.id == p.id)) = true := by
      rcases List.mem_map.mp hdup with ⟨e, he, heid⟩
      exact List.any_eq_true.mpr ⟨e, he, by simp [heid]⟩
    have hone : mergeTweets existing [p] = existing := by
      simp [mergeTweets, hany]
    unfold mergeAccountTweets
    rw [hex]
    show alInsert store username (mergeTweets existing [p]) = store
    rw [hone]
    exact alInsert_self_of_lookup store username existing hnd hex
  · unfold mergeTweets
    congr 1
    apply List.filter_congr
    intro t ht
    rw [decide_not]
    rw [show (existing.any (fun e => e.id == t.id)) =
        decide (t.id ∈ existing.map Tweet.id) from ?_]
    rw [Bool.eq_iff_iff]
    simp [List.any_eq_true, List.mem_map]

/-- Witness for C8: re-merging `twA` into `storeAB` leaves it unchanged, and
merging the batch `[twA, twC]` appends exactly `twC`. -/
theorem merge_idempotent_dedup_witness :
    mergeAccountTweets storeAB ("alice") [twA] = storeAB ∧
    mergeTweets [twA, twB] [twA, twC] =
      [twA, twB] ++ [twA, twC].filter (fun t => decide (t.id ∉ [twA, twB].map Tweet.id)) :=
  merge_idempotent_dedup storeAB ("alice") [twA, twB] twA [twA, twC]
    (by show (storeAB.map Prod.fst).Nodup; decide) rfl (by decide)

/-- Claim C9, counterexample to the claim as stated: a user with exactly
`tweet_count = 300 = min_tweets` and followers below the cap is admitted by
the inline pre-filter (`tweet_count >= min_tweets`) but rejected by the
metric gate (`tweet_count > min_tweets`): the two predicates disagree at the
boundary `t = 300`. -/
theorem inline_prefilter_boundary_counterexample :
    inlineUserFilter accBoundary = true ∧ meetsMetricThresholds accBoundary = false := by
  refine ⟨by decide, by decide⟩

/-- Claim C9 (amended): the inline pre-filter admits exactly the users with
`tweet_count ≥ 300` and `followers < 2000`; it agrees with the metric gate at
every `tweet_count ≠ 300` (in particular at the follower boundary `f = 2000`,
where both reject), and disagrees exactly at `tweet_count = 300` with
followers below the cap, where the pre-filter admits and the gate rejects. -/
theorem inline_prefilter_characterization (u : Account) :
    (inlineUserFilter u = true ↔
      (minTweets ≤ u.public_metrics.tweet_count ∧
        u.public_metrics.followers_count < maxFollowers)) ∧
    (u.public_metrics.tweet_count ≠ minTweets →
      inlineUserFilter u = meetsMetricThresholds u) := by
  constructor
  · simp [inlineUserFilter]
  · intro hne
    rw [Bool.eq_iff_iff]
    simp only [inlineUserFilter, meetsMetricThresholds, Bool.and_eq_true, decide_eq_true_eq]
    simp only [minTweets, maxFollowers] at hne ⊢
    omega

/-- Witness for C9 (amended): just above the boundary (`tweet_count = 301`)
the pre-filter and the metric gate agree. -/
theorem inline_prefilter_characterization_witness :
    inlineUserFilter accAbove = meetsMetricThresholds accAbove :=
  (inline_prefilter_characterization accAbove).2 (by decide)

end HiddenAlpha
